import Mathlib

/-!
Verification development for the HDF5-Viewer-in-Streamlit repository.

The development shallowly embeds the algorithmic core of the two viewer
pages, `streamlit_app.py` (general viewer) and `pages/01_Temporais.py`
(temporal viewer):

* the recursive tree walks `list_datasets_only` and
  `find_temporal_datasets` over an HDF5 group hierarchy;
* the channel naming function `get_channel_names`;
* the inline channel-selection defaults of both pages;
* the inline sample-limiting logic of both pages;
* the statistics function `calculate_statistics`.

Modelling conventions: an HDF5 file or group is a finite ordered forest of
named children, each child either a dataset or a sub-group.  Machine floats
are modelled as exact rationals.  A Python expression that may raise is
modelled with the `PyRead` sum type; the message of a raised exception is
kept as a string.  Numpy array reads of a dataset are folded into a single
`readData` field: `PyRead.ok` carries the materialized matrix (list of
rows) and `PyRead.raised` models any read or comparison failure on that
dataset (for instance a non-numeric dtype).
-/

/-- Result of running a piece of Python code: a value, or a raised
exception carrying its message. -/
inductive PyRead (α : Type) where
  | ok : α → PyRead α
  | raised : String → PyRead α
deriving DecidableEq, Repr

/-- Value of an HDF5 attribute as seen by `get_channel_names`:
either a list / 1-D ndarray, whose elements are kept as the result of the
Python coercion `str(element)` (which may in principle raise), or any
other, non-list-like value. -/
inductive AttrValue where
  | arr : List (PyRead String) → AttrValue
  | other : String → AttrValue
deriving DecidableEq, Repr

/-- Metadata and content of an HDF5 dataset node.  `shape` is the numpy
shape tuple, `dtype` the string rendering of the dtype, `attrs` the
attribute mapping in iteration order, and `readData` the result of
materializing the dataset as a matrix of rationals (rows of columns);
`PyRead.raised` models a failing read, for example on a non-numeric
dtype. -/
structure DSInfo where
  shape : List Nat
  dtype : String
  readData : PyRead (List (List ℚ))
  attrs : List (String × AttrValue)
deriving DecidableEq, Repr

/-- Ordered forest of named HDF5 children: each child is either a dataset
leaf or a group with its own child forest.  A file handle is the forest of
its root children. -/
inductive HForest where
  | nil : HForest
  | dataset : String → DSInfo → HForest → HForest
  | group : String → HForest → HForest → HForest
deriving DecidableEq, Repr

/-- Path construction used by both tree walks:
Python `path = f"{prefix}/{key}" if prefix else key`. -/
def mkPath (pfx key : String) : String :=
  if pfx = "" then key else pfx ++ "/" ++ key

/-- Record appended by `find_temporal_datasets` for a qualifying dataset
(`01_Temporais.py`, lines 87-92): the dict
`{'path', 'shape', 'dtype', 'channels'}`. -/
structure TemporalDescriptor where
  path : String
  shape : List Nat
  dtype : String
  channels : Nat
deriving DecidableEq, Repr

/-- Embedding of the probe condition `np.all(np.diff(xs) >= 0)`: every
adjacent pair of the list is non-decreasing. -/
def nonDecr : List ℚ → Bool
  | x :: y :: rest => (decide (x ≤ y)) && nonDecr (y :: rest)
  | _ => true

/-- Embedding of `find_temporal_datasets(h5obj, prefix="")`
(`01_Temporais.py`, lines 71-98).  For every child of the group, in
iteration order: a dataset qualifies when it is 2-D with at least two
columns and the first `min(100, shape[0])` rows of column 0 are
non-decreasing; the probe read sits inside `try/except: pass`, so a
raising read skips just that dataset; a group is recursed into with the
extended path as the new prefix. -/
def find_temporal_datasets : HForest → String → List TemporalDescriptor
  | .nil, _ => []
  | .dataset key ds rest, pfx =>
      (if ds.shape.length = 2 ∧ 2 ≤ ds.shape.getD 1 0 then
        match ds.readData with
        | .raised _ => []
        | .ok m =>
            if nonDecr ((m.take (min 100 (ds.shape.getD 0 0))).map
                (fun r => r.getD 0 0)) then
              [{ path := mkPath pfx key, shape := ds.shape,
                 dtype := ds.dtype,
                 channels := ds.shape.getD 1 0 - 1 }]
            else []
      else []) ++ find_temporal_datasets rest pfx
  | .group key children rest, pfx =>
      find_temporal_datasets children (mkPath pfx key)
        ++ find_temporal_datasets rest pfx

/-- Embedding of `list_datasets_only(h5obj, prefix="")`
(`streamlit_app.py`, lines 45-54): collects the full path of every
dataset child and recurses into groups, appending their results; group
paths themselves are not collected. -/
def list_datasets_only : HForest → String → List String
  | .nil, _ => []
  | .dataset key _ rest, pfx =>
      mkPath pfx key :: list_datasets_only rest pfx
  | .group key children rest, pfx =>
      list_datasets_only children (mkPath pfx key)
        ++ list_datasets_only rest pfx

/-- Reference walk used only in theorem statements: every dataset node of
the forest with its full path, in the same depth-first pre-order that the
two source walks use. -/
def datasetsOf : HForest → String → List (String × DSInfo)
  | .nil, _ => []
  | .dataset key ds rest, pfx =>
      (mkPath pfx key, ds) :: datasetsOf rest pfx
  | .group key children rest, pfx =>
      datasetsOf children (mkPath pfx key) ++ datasetsOf rest pfx

/-- Python coercion `[str(name) for name in names]`: succeeds with the
list of coerced strings, or fails as soon as one element raises. -/
def strCoerceAll : List (PyRead String) → Option (List String)
  | [] => some []
  | .ok s :: rest => (strCoerceAll rest).map (fun l => s :: l)
  | .raised _ :: _ => none

/-- Embedding of `get_channel_names(dataset, dataset_path)`
(`01_Temporais.py`, lines 100-118).  Reads the `channel_names` attribute
when present; only a list or ndarray value is used, each element coerced
with `str`; an exception during the attempt leaves the list empty.  When
the collected list is empty (attribute absent, wrong type, coercion
failure, or an empty attribute), falls back to `Canal i` for
`i = 1 .. shape[1] - 1`.  The `dataset_path` argument is unused in the
source as well. -/
def get_channel_names (dataset : DSInfo) (_dataset_path : String) : List String :=
  let channel_names : List String :=
    match dataset.attrs.lookup "channel_names" with
    | some (AttrValue.arr elems) =>
        match strCoerceAll elems with
        | some names => names
        | none => []
    | some (AttrValue.other _) => []
    | none => []
  if channel_names.isEmpty then
    (List.range (dataset.shape.getD 1 0 - 1)).map
      (fun i => "Canal " ++ toString (i + 1))
  else channel_names

/-- Channel names of the general viewer (`streamlit_app.py`, line 257):
always the positional template, one per column; the `channel_names`
attribute is never consulted there. -/
def general_channel_names (ncols : Nat) : List String :=
  (List.range ncols).map (fun i => "Channel_" ++ toString (i + 1))

/-- Empty-selection handling of the general viewer
(`streamlit_app.py`, lines 271-273): an empty multiselect result is
replaced by the first available channel.  Python indexes
`available_channels[0]`; this code path runs only with at least two
columns, hence a non-empty list, so `headD` is only read under that
hypothesis. -/
def general_selected_channels (available_channels selected_channels : List String) :
    List String :=
  if selected_channels.isEmpty then [available_channels.headD ""]
  else selected_channels

/-- Initial widget default of the temporal viewer multiselect
(`01_Temporais.py`, line 247): `channel_names[:min(3, len(channel_names))]`. -/
def temporal_default_channels (channel_names : List String) : List String :=
  channel_names.take (min 3 channel_names.length)

/-- Empty-selection handling of the temporal viewer
(`01_Temporais.py`, lines 251 and 341-342): extraction, plotting and
statistics run only under `if selected_channels:`; an empty selection
produces a warning and no extraction, with no default substituted. -/
def temporal_selected_gate (selected_channels : List String) :
    Option (List String) :=
  if selected_channels.isEmpty then none else some selected_channels

/-- Materialized numpy array of rank 1 or 2, as handled by the sample
limiter of the general viewer. -/
inductive NpArray where
  | one : List ℚ → NpArray
  | two : List (List ℚ) → NpArray
deriving DecidableEq, Repr

/-- Total element count, numpy `data.size`. -/
def NpArray.size : NpArray → Nat
  | .one xs => xs.length
  | .two rows => (rows.map List.length).sum

/-- Length along the leading axis. -/
def NpArray.leadingLen : NpArray → Nat
  | .one xs => xs.length
  | .two rows => rows.length

/-- Embedding of the sample limit of the general viewer
(`streamlit_app.py`, lines 219-223): when the limit is enabled and
`data.size > max_samples`, a 1-D array is cut to its first
`max_samples` elements and a 2-D array to its first `max_samples`
rows; otherwise the data is returned unchanged. -/
def general_sample_limit (use_sample_limit : Bool) (max_samples : Nat)
    (data : NpArray) : NpArray :=
  if use_sample_limit ∧ max_samples < data.size then
    match data with
    | .one xs => .one (xs.take max_samples)
    | .two rows => .two (rows.take max_samples)
  else data

/-- Embedding of the sample limit of the temporal viewer
(`01_Temporais.py`, lines 228-232): when the limit is enabled and
`dataset.shape[0] > max_samples`, the first `max_samples` rows are
read, otherwise the full dataset. -/
def temporal_sample_limit (use_sample_limit : Bool) (max_samples : Nat)
    (rows : List (List ℚ)) : List (List ℚ) :=
  if use_sample_limit ∧ max_samples < rows.length then rows.take max_samples
  else rows

/-- Column `i` of a row-major matrix, numpy `data[:, i]`. -/
def column (i : Nat) (data : List (List ℚ)) : List ℚ :=
  data.map (fun row => row.getD i 0)

/-- Numpy `np.mean`: arithmetic mean; on an empty array numpy warns and
returns not-a-number, modelled as `none`. -/
def npMean (xs : List ℚ) : Option ℚ :=
  if xs.isEmpty then none else some (xs.sum / xs.length)

/-- Numpy `np.var` with the default `ddof = 0`: population variance;
not-a-number on an empty array, modelled as `none`. -/
def npVar (xs : List ℚ) : Option ℚ :=
  match npMean xs with
  | none => none
  | some mu => some ((xs.map (fun x => (x - mu) ^ 2)).sum / xs.length)

/-- Value of `np.min` on a non-empty list (fold of the binary minimum). -/
def npMinD (xs : List ℚ) : ℚ :=
  match xs with
  | [] => 0
  | x :: rest => rest.foldl min x

/-- Value of `np.max` on a non-empty list (fold of the binary maximum). -/
def npMaxD (xs : List ℚ) : ℚ :=
  match xs with
  | [] => 0
  | x :: rest => rest.foldl max x

/-- Numpy `np.min`: raises `ValueError` on an empty array. -/
def npMin (xs : List ℚ) : PyRead ℚ :=
  match xs with
  | [] => .raised "zero-size array to reduction operation minimum which has no identity"
  | x :: rest => .ok (rest.foldl min x)

/-- Numpy `np.max`: raises `ValueError` on an empty array. -/
def npMax (xs : List ℚ) : PyRead ℚ :=
  match xs with
  | [] => .raised "zero-size array to reduction operation maximum which has no identity"
  | x :: rest => .ok (rest.foldl max x)

/-- Numpy `np.median`: sort ascending, take the middle element for odd
length and the mean of the two middle elements for even length;
not-a-number on an empty array, modelled as `none`. -/
def npMedian (xs : List ℚ) : Option ℚ :=
  if xs.isEmpty then none
  else
    let s := List.insertionSort (fun a b : ℚ => a ≤ b) xs
    let n := xs.length
    some (if n % 2 = 1 then s.getD (n / 2) 0
          else (s.getD (n / 2 - 1) 0 + s.getD (n / 2) 0) / 2)

/-- Row of the statistics table built by `calculate_statistics`
(`01_Temporais.py`, lines 158-166).  The source dict also stores the
column `Desvio Padrão` holding `np.std`, the square root of the
population variance; a square root is not rational-valued, so that
column is stated in the theorems as `Real.sqrt` of the `variancia`
field. -/
structure StatRecord where
  canal : String
  media : Option ℚ
  minimo : ℚ
  maximo : ℚ
  mediana : Option ℚ
  variancia : Option ℚ
deriving DecidableEq, Repr, Inhabited

/-- Loop body of `calculate_statistics` with the running column index:
for each channel name, the statistics of the corresponding column are
computed; `np.min` and `np.max` raise on an empty column, which aborts
the whole loop with that exception. -/
def statsGo (data : List (List ℚ)) : List String → Nat → PyRead (List StatRecord)
  | [], _ => .ok []
  | name :: rest, i =>
      let channel_data := column i data
      match npMin channel_data, npMax channel_data with
      | .ok mn, .ok mx =>
          (match statsGo data rest (i + 1) with
           | .ok recs =>
               .ok ({ canal := name, media := npMean channel_data,
                      minimo := mn, maximo := mx,
                      mediana := npMedian channel_data,
                      variancia := npVar channel_data } :: recs)
           | .raised e => .raised e)
      | .raised e, _ => .raised e
      | .ok _, .raised e => .raised e

/-- Embedding of `calculate_statistics(data, channel_names)`
(`01_Temporais.py`, lines 152-168): one record per channel name, in
order, each holding the mean, minimum, maximum, median and population
variance of column `i` of `data`; an exception from an empty column
propagates out. -/
def calculate_statistics (data : List (List ℚ)) (channel_names : List String) :
    PyRead (List StatRecord) :=
  statsGo data channel_names 0

/-- Qualification test of the temporal classifier on one dataset, exactly
the conditions of `find_temporal_datasets`: rank 2, at least two columns,
the probe read succeeds, and column 0 of the first `min(100, shape[0])`
rows is non-decreasing.  Used only in theorem statements. -/
def isTemporalB (ds : DSInfo) : Bool :=
  decide (ds.shape.length = 2 ∧ 2 ≤ ds.shape.getD 1 0) &&
  (match ds.readData with
   | .raised _ => false
   | .ok m =>
       nonDecr ((m.take (min 100 (ds.shape.getD 0 0))).map
         (fun r => r.getD 0 0)))

/-- Descriptor emitted for a qualifying dataset, `none` for a
non-qualifying one.  Used only in theorem statements. -/
def tdesc (pd : String × DSInfo) : Option TemporalDescriptor :=
  if isTemporalB pd.2 then
    some { path := pd.1, shape := pd.2.shape, dtype := pd.2.dtype,
           channels := pd.2.shape.getD 1 0 - 1 }
  else none

/-- The forest with every dataset whose probe read raises removed;
groups and readable datasets are kept unchanged. -/
def dropRaising : HForest → HForest
  | .nil => .nil
  | .dataset key ds rest =>
      match ds.readData with
      | .raised _ => dropRaising rest
      | .ok _ => .dataset key ds (dropRaising rest)
  | .group key children rest =>
      .group key (dropRaising children) (dropRaising rest)

/-- Demo dataset for the C1 witness: 2-D, three columns, non-decreasing
first column. -/
def c1DS : DSInfo :=
  { shape := [4, 3], dtype := "float64",
    readData := PyRead.ok [[0, 1, 2], [1, 1, 2], [2, 1, 2], [3, 1, 2]],
    attrs := [] }

/-- Demo dataset for the C1 witness that fails the probe: first column
strictly decreasing. -/
def c1BadDS : DSInfo :=
  { shape := [4, 3], dtype := "float64",
    readData := PyRead.ok [[5, 0, 0], [4, 0, 0], [3, 0, 0], [2, 0, 0]],
    attrs := [] }

/-- Demo forest for the C1 witness. -/
def c1Forest : HForest :=
  .group "sensors" (.dataset "temp" c1DS (.dataset "bad" c1BadDS .nil)) .nil

/-- Demo dataset for the C9 witness. -/
def c9DS : DSInfo :=
  { shape := [2, 3], dtype := "int64",
    readData := PyRead.ok [[0, 7, 8], [1, 7, 8]], attrs := [] }

/-- Demo forest for the C9 witness. -/
def c9Forest : HForest := .dataset "t" c9DS .nil

/-- Descriptor that `find_temporal_datasets` emits on `c9Forest`. -/
def c9Desc : TemporalDescriptor :=
  { path := "t", shape := [2, 3], dtype := "int64", channels := 2 }

/-- Demo dataset for the C10 witness: shape (0, 4), no rows at all. -/
def c10DS : DSInfo :=
  { shape := [0, 4], dtype := "float64", readData := PyRead.ok [],
    attrs := [] }

/-- Demo forest for the C10 witness. -/
def c10Forest : HForest := .dataset "empty" c10DS .nil

/-- Demo dataset for the C4 counterexample. -/
def c4DS : DSInfo :=
  { shape := [2, 2], dtype := "int64", readData := PyRead.ok [[0, 0], [1, 1]],
    attrs := [] }

/-- Demo forest for the C4 counterexample: one group `g` holding one
dataset `d`. -/
def c4Forest : HForest := .group "g" (.dataset "d" c4DS .nil) .nil

/-- Demo dataset for the C2 counterexample: a `channel_names` attribute
of length 3 on a dataset with a single data channel
(`shape[1] - 1 = 1`). -/
def c2DS : DSInfo :=
  { shape := [4, 2], dtype := "float64",
    readData := PyRead.ok [[0, 1], [1, 1], [2, 1], [3, 1]],
    attrs := [("channel_names",
      AttrValue.arr [.ok "a", .ok "b", .ok "c"])] }

/-- Demo dataset for the C2 witness: a `channel_names` attribute of
length 2 on a dataset with exactly 2 data channels (the matched-length
case of the spec). -/
def c2GoodDS : DSInfo :=
  { shape := [4, 3], dtype := "float64",
    readData := PyRead.ok [[0, 1, 2], [1, 1, 2], [2, 1, 2], [3, 1, 2]],
    attrs := [("channel_names",
      AttrValue.arr [.ok "Voltage", .ok "Current"])] }

/-- Record of statistics of one column, used in theorem statements: the
values that the source dict stores for that channel. -/
def recOf (data : List (List ℚ)) (i : Nat) (name : String) : StatRecord :=
  { canal := name, media := npMean (column i data),
    minimo := npMinD (column i data), maximo := npMaxD (column i data),
    mediana := npMedian (column i data),
    variancia := npVar (column i data) }

/-- Reference list of statistics records, one per name with a running
column index, used in theorem statements. -/
def statsSpec (data : List (List ℚ)) : List String → Nat → List StatRecord
  | [], _ => []
  | name :: rest, i => recOf data i name :: statsSpec data rest (i + 1)

/-- Truth value of a Python run finishing without an exception. -/
def PyRead.isOk {α : Type} : PyRead α → Bool
  | .ok _ => true
  | .raised _ => false

lemma isTemporalB_iff_of_read (ds : DSInfo) (m : List (List ℚ))
    (hread : ds.readData = PyRead.ok m) :
    isTemporalB ds = true ↔
      (ds.shape.length = 2 ∧ 2 ≤ ds.shape.getD 1 0 ∧
        nonDecr ((m.take (min 100 (ds.shape.getD 0 0))).map
          (fun r => r.getD 0 0)) = true) := by
  simp [isTemporalB, hread, and_assoc]

lemma filterMap_cons_toList {α β : Type} (g : α → Option β) (a : α)
    (l : List α) :
    List.filterMap g (a :: l) = (g a).toList ++ List.filterMap g l := by
  cases h : g a with
  | none => simp [List.filterMap_cons, h]
  | some b => simp [List.filterMap_cons, h]

lemma find_head_eq (key : String) (ds : DSInfo) (pfx : String) :
    (if ds.shape.length = 2 ∧ 2 ≤ ds.shape.getD 1 0 then
      match ds.readData with
      | PyRead.raised _ => ([] : List TemporalDescriptor)
      | PyRead.ok m =>
          if nonDecr ((m.take (min 100 (ds.shape.getD 0 0))).map
              (fun r => r.getD 0 0)) then
            [{ path := mkPath pfx key, shape := ds.shape, dtype := ds.dtype,
               channels := ds.shape.getD 1 0 - 1 }]
          else []
      else []) = (tdesc (mkPath pfx key, ds)).toList := by
  cases hb : isTemporalB ds with
  | true =>
      have htd : ∃ d, tdesc (mkPath pfx key, ds) = some d ∧
          d = { path := mkPath pfx key, shape := ds.shape, dtype := ds.dtype,
                channels := ds.shape.getD 1 0 - 1 } := by
        refine ⟨_, ?_, rfl⟩
        simp [tdesc, hb]
      obtain ⟨d, htd, hd⟩ := htd
      rw [htd, hd]
      unfold isTemporalB at hb
      rw [Bool.and_eq_true, decide_eq_true_eq] at hb
      obtain ⟨hc, hx⟩ := hb
      rw [if_pos hc]
      cases hr : ds.readData with
      | raised e =>
          rw [hr] at hx
          cases hx
      | ok m =>
          rw [hr] at hx
          dsimp only at hx ⊢
          rw [if_pos hx]
          rfl
  | false =>
      have htd : tdesc (mkPath pfx key, ds) = none := by
        simp [tdesc, hb]
      rw [htd]
      unfold isTemporalB at hb
      by_cases hc : ds.shape.length = 2 ∧ 2 ≤ ds.shape.getD 1 0
      · rw [if_pos hc]
        cases hr : ds.readData with
        | raised e => rfl
        | ok m =>
            rw [hr, decide_eq_true hc, Bool.true_and] at hb
            dsimp only at hb ⊢
            rw [if_neg]
            · rfl
            · simpa using hb
      · rw [if_neg hc]
        rfl

lemma find_temporal_datasets_eq_filterMap (f : HForest) (pfx : String) :
    find_temporal_datasets f pfx = (datasetsOf f pfx).filterMap tdesc := by
  induction f generalizing pfx with
  | nil => rfl
  | dataset key ds rest ih =>
      simp only [find_temporal_datasets, datasetsOf, filterMap_cons_toList]
      rw [ih, find_head_eq]
  | group key children rest ih1 ih2 =>
      simp only [find_temporal_datasets, datasetsOf, List.filterMap_append]
      rw [ih1, ih2]

lemma eq_of_nodupKeys {α β : Type} {l : List (α × β)}
    (hnd : (l.map Prod.fst).Nodup) {p : α} {a b : β}
    (ha : (p, a) ∈ l) (hb : (p, b) ∈ l) : a = b := by
  induction l with
  | nil => cases ha
  | cons x t ih =>
      rw [List.map_cons, List.nodup_cons] at hnd
      rcases List.mem_cons.mp ha with ha1 | ha1
      · rcases List.mem_cons.mp hb with hb1 | hb1
        · rw [ha1.symm] at hb1
          exact (Prod.mk.injEq _ _ _ _ ▸ hb1).2.symm
        · exfalso
          apply hnd.1
          have : p = x.1 := by rw [← ha1]
          rw [this] at hb1
          exact List.mem_map.mpr ⟨(x.1, b), hb1, rfl⟩
      · rcases List.mem_cons.mp hb with hb1 | hb1
        · exfalso
          apply hnd.1
          have : p = x.1 := by rw [← hb1]
          rw [this] at ha1
          exact List.mem_map.mpr ⟨(x.1, a), ha1, rfl⟩
        · exact ih hnd.2 ha1 hb1

lemma tdesc_some_iff {pd : String × DSInfo} {d : TemporalDescriptor} :
    tdesc pd = some d ↔
      (isTemporalB pd.2 = true ∧
        d = { path := pd.1, shape := pd.2.shape, dtype := pd.2.dtype,
              channels := pd.2.shape.getD 1 0 - 1 }) := by
  unfold tdesc
  by_cases hb : isTemporalB pd.2
  · simp [hb, eq_comm]
  · simp [hb]

/-- C1: for every dataset node reachable in the container whose probe
read succeeds, `find_temporal_datasets` includes a descriptor for its
path if and only if the dataset is 2-dimensional, has at least 2
columns, and column 0 is non-decreasing over the first
`min(100, row_count)` rows; a decreasing value inside the probe window
excludes the dataset. -/
theorem find_temporal_datasets_mem_iff (f : HForest) (p : String)
    (ds : DSInfo) (m : List (List ℚ))
    (hnd : ((datasetsOf f "").map Prod.fst).Nodup)
    (hmem : (p, ds) ∈ datasetsOf f "")
    (hread : ds.readData = PyRead.ok m) :
    (∃ d ∈ find_temporal_datasets f "", d.path = p) ↔
      (ds.shape.length = 2 ∧ 2 ≤ ds.shape.getD 1 0 ∧
        nonDecr ((m.take (min 100 (ds.shape.getD 0 0))).map
          (fun r => r.getD 0 0)) = true) := by
  rw [find_temporal_datasets_eq_filterMap]
  constructor
  · rintro ⟨d, hd, hpath⟩
    rcases List.mem_filterMap.mp hd with ⟨⟨q, ds2⟩, hq, htd⟩
    obtain ⟨hbt, hdval⟩ := tdesc_some_iff.mp htd
    have hpq : q = p := by rw [hdval] at hpath; exact hpath
    rw [hpq] at hq
    have heq : ds2 = ds := eq_of_nodupKeys hnd hq hmem
    rw [heq] at hbt
    exact (isTemporalB_iff_of_read ds m hread).mp hbt
  · rintro ⟨h1, h2, h3⟩
    have hbt : isTemporalB ds = true :=
      (isTemporalB_iff_of_read ds m hread).mpr ⟨h1, h2, h3⟩
    exact ⟨_, List.mem_filterMap.mpr ⟨(p, ds), hmem,
      tdesc_some_iff.mpr ⟨hbt, rfl⟩⟩, rfl⟩

theorem find_temporal_datasets_mem_iff_witness :
    ((datasetsOf c1Forest "").map Prod.fst).Nodup ∧
    ("sensors/temp", c1DS) ∈ datasetsOf c1Forest "" ∧
    c1DS.readData =
      PyRead.ok [[0, 1, 2], [1, 1, 2], [2, 1, 2], [3, 1, 2]] ∧
    (∃ d ∈ find_temporal_datasets c1Forest "", d.path = "sensors/temp") :=
  ⟨by decide, by decide, rfl,
    (find_temporal_datasets_mem_iff c1Forest "sensors/temp" c1DS
      [[0, 1, 2], [1, 1, 2], [2, 1, 2], [3, 1, 2]]
      (by decide) (by decide) rfl).mpr (by decide)⟩

/-- C8: a raising probe read on a single candidate dataset only removes
that dataset from the scan: discovery over the whole forest returns the
same result as discovery over the forest with all raising datasets
removed, and in particular never itself raises (it is a total function
into a plain list). -/
theorem find_temporal_datasets_skips_raising (f : HForest) (pfx : String) :
    find_temporal_datasets f pfx =
      find_temporal_datasets (dropRaising f) pfx := by
  induction f generalizing pfx with
  | nil => rfl
  | dataset key ds rest ih =>
      cases hr : ds.readData with
      | raised e =>
          simp only [find_temporal_datasets, dropRaising, hr, ite_self,
            List.nil_append]
          exact ih pfx
      | ok m =>
          simp only [find_temporal_datasets, dropRaising, hr]
          rw [ih]
  | group key children rest ih1 ih2 =>
      simp only [find_temporal_datasets, dropRaising]
      rw [ih1, ih2]

/-- C9: every descriptor produced by `find_temporal_datasets` has its
channels field equal to its column count minus one. -/
theorem find_temporal_channels_eq (f : HForest) (pfx : String)
    (d : TemporalDescriptor) (hd : d ∈ find_temporal_datasets f pfx) :
    d.channels = d.shape.getD 1 0 - 1 := by
  rw [find_temporal_datasets_eq_filterMap] at hd
  rcases List.mem_filterMap.mp hd with ⟨pd, hpd, htd⟩
  obtain ⟨hb, hdval⟩ := tdesc_some_iff.mp htd
  rw [hdval]

theorem find_temporal_channels_eq_witness :
    c9Desc ∈ find_temporal_datasets c9Forest "" ∧
    c9Desc.channels = c9Desc.shape.getD 1 0 - 1 :=
  ⟨by decide, find_temporal_channels_eq c9Forest "" c9Desc (by decide)⟩

/-- C10: a 2-D readable dataset with at least two columns and zero rows
is classified as temporal — the probe window is empty, so the
non-decreasing check is vacuously true — and its descriptor carries
`channels = shape[1] - 1`. -/
theorem find_temporal_datasets_zero_rows (f : HForest) (p : String)
    (ds : DSInfo) (m : List (List ℚ))
    (hmem : (p, ds) ∈ datasetsOf f "")
    (hlen : ds.shape.length = 2)
    (hrows : ds.shape.getD 0 0 = 0)
    (hcols : 2 ≤ ds.shape.getD 1 0)
    (hread : ds.readData = PyRead.ok m) :
    ∃ d ∈ find_temporal_datasets f "",
      d.path = p ∧ d.channels = ds.shape.getD 1 0 - 1 := by
  have hbt : isTemporalB ds = true := by
    rw [isTemporalB_iff_of_read ds m hread]
    refine ⟨hlen, hcols, ?_⟩
    rw [hrows]
    simp [nonDecr]
  rw [find_temporal_datasets_eq_filterMap]
  exact ⟨_, List.mem_filterMap.mpr ⟨(p, ds), hmem,
    tdesc_some_iff.mpr ⟨hbt, rfl⟩⟩, rfl, rfl⟩

theorem find_temporal_datasets_zero_rows_witness :
    ("empty", c10DS) ∈ datasetsOf c10Forest "" ∧
    c10DS.shape.length = 2 ∧
    c10DS.shape.getD 0 0 = 0 ∧
    2 ≤ c10DS.shape.getD 1 0 ∧
    c10DS.readData = PyRead.ok [] ∧
    (∃ d ∈ find_temporal_datasets c10Forest "",
      d.path = "empty" ∧ d.channels = c10DS.shape.getD 1 0 - 1) :=
  ⟨by decide, by decide, by decide, by decide, rfl,
    find_temporal_datasets_zero_rows c10Forest "empty" c10DS []
      (by decide) (by decide) (by decide) (by decide) rfl⟩

/-- C4 counterexample: `list_datasets_only` does not yield the path of
every node — the group node `g` is a node of the container with full
path `g`, yet only the dataset path `g/d` is returned. -/
theorem list_datasets_only_omits_group_paths :
    list_datasets_only c4Forest "" = ["g/d"] ∧
      ("g" : String) ∉ list_datasets_only c4Forest "" := by
  refine ⟨by decide, by decide⟩

/-- C4 as amended: `list_datasets_only` yields the full slash-separated
path of every dataset node (and only of dataset nodes), in depth-first
pre-order with siblings in native iteration order — the same order in
which `datasetsOf` enumerates the dataset nodes; group children are
recursed into but their own paths are not yielded. -/
theorem list_datasets_only_eq_dataset_paths (f : HForest) (pfx : String) :
    list_datasets_only f pfx = (datasetsOf f pfx).map Prod.fst := by
  induction f generalizing pfx with
  | nil => rfl
  | dataset key ds rest ih =>
      simp only [list_datasets_only, datasetsOf, List.map_cons]
      rw [ih]
  | group key children rest ih1 ih2 =>
      simp only [list_datasets_only, datasetsOf, List.map_append]
      rw [ih1, ih2]

lemma range_map_getD (k i : Nat) (g : Nat → String) (h : i < k) :
    ((List.range k).map g).getD i "" = g i := by
  rw [List.getD_eq_getElem?_getD, List.getElem?_map, List.getElem?_range h]
  rfl

/-- C2 counterexample: the source never compares the attribute length
with the channel count, so a length-3 attribute is returned verbatim on
a dataset with exactly 1 data channel, and the result does not have
`expected_count` elements. -/
theorem get_channel_names_length_mismatch :
    get_channel_names c2DS "" = ["a", "b", "c"] ∧
      c2DS.shape.getD 1 0 - 1 = 1 ∧
      (get_channel_names c2DS "").length ≠ 1 := by
  refine ⟨by decide, by decide, by decide⟩

/-- C2 as amended: `get_channel_names` returns the attribute elements
coerced to display strings in original order whenever the
`channel_names` attribute is present, list-or-array-like, non-empty and
every coercion succeeds — regardless of whether its length matches the
channel count, so the result need not have `shape[1] - 1` elements; in
every other case (attribute absent, wrong container type, coercion
failure, or an empty attribute) — and only in those cases — it falls
back to the positional names `Canal 1 .. Canal k` with
`k = shape[1] - 1`.  Both directions are stated: whenever the attribute
succeeds the coerced names are returned verbatim (this covers the
matched-length case of the spec), and whenever it does not, the result
is exactly the fallback template.  The general viewer never consults
the attribute: its names are always the positional
`Channel_1 .. Channel_n`. -/
theorem get_channel_names_total (ds : DSInfo) (dataset_path : String) :
    (∀ elems names,
        ds.attrs.lookup "channel_names" = some (AttrValue.arr elems) →
        strCoerceAll elems = some names → names ≠ [] →
        get_channel_names ds dataset_path = names) ∧
    ((¬∃ elems names,
        ds.attrs.lookup "channel_names" = some (AttrValue.arr elems) ∧
        strCoerceAll elems = some names ∧ names ≠ []) →
      ((get_channel_names ds dataset_path).length = ds.shape.getD 1 0 - 1 ∧
        ∀ i, i < ds.shape.getD 1 0 - 1 →
          (get_channel_names ds dataset_path).getD i "" =
            "Canal " ++ toString (i + 1))) ∧
    ((general_channel_names (ds.shape.getD 1 0)).length =
        ds.shape.getD 1 0 ∧
      ∀ i, i < ds.shape.getD 1 0 →
        (general_channel_names (ds.shape.getD 1 0)).getD i "" =
          "Channel_" ++ toString (i + 1)) := by
  refine ⟨?_, ?_, ?_⟩
  · intro elems names hl hco hne
    cases names with
    | nil => exact absurd rfl hne
    | cons n rest => simp [get_channel_names, hl, hco]
  · intro hno
    cases hl : ds.attrs.lookup "channel_names" with
    | none =>
        have hres : get_channel_names ds dataset_path =
            (List.range (ds.shape.getD 1 0 - 1)).map
              (fun i => "Canal " ++ toString (i + 1)) := by
          simp [get_channel_names, hl]
        rw [hres]
        exact ⟨by simp, fun i hi => range_map_getD _ i _ hi⟩
    | some av =>
        cases av with
        | other s =>
            have hres : get_channel_names ds dataset_path =
                (List.range (ds.shape.getD 1 0 - 1)).map
                  (fun i => "Canal " ++ toString (i + 1)) := by
              simp [get_channel_names, hl]
            rw [hres]
            exact ⟨by simp, fun i hi => range_map_getD _ i _ hi⟩
        | arr elems =>
            cases hco : strCoerceAll elems with
            | none =>
                have hres : get_channel_names ds dataset_path =
                    (List.range (ds.shape.getD 1 0 - 1)).map
                      (fun i => "Canal " ++ toString (i + 1)) := by
                  simp [get_channel_names, hl, hco]
                rw [hres]
                exact ⟨by simp, fun i hi => range_map_getD _ i _ hi⟩
            | some names =>
                cases names with
                | nil =>
                    have hres : get_channel_names ds dataset_path =
                        (List.range (ds.shape.getD 1 0 - 1)).map
                          (fun i => "Canal " ++ toString (i + 1)) := by
                      simp [get_channel_names, hl, hco]
                    rw [hres]
                    exact ⟨by simp, fun i hi => range_map_getD _ i _ hi⟩
                | cons n rest =>
                    exact absurd ⟨elems, n :: rest, hl, hco, by simp⟩ hno
  · unfold general_channel_names
    exact ⟨by simp, fun i hi => range_map_getD _ i _ hi⟩

theorem get_channel_names_total_witness :
    c2GoodDS.attrs.lookup "channel_names" =
      some (AttrValue.arr [.ok "Voltage", .ok "Current"]) ∧
    strCoerceAll [.ok "Voltage", .ok "Current"] =
      some ["Voltage", "Current"] ∧
    (["Voltage", "Current"] : List String) ≠ [] ∧
    get_channel_names c2GoodDS "" = ["Voltage", "Current"] :=
  ⟨by decide, by decide, by decide,
    (get_channel_names_total c2GoodDS "").1 [.ok "Voltage", .ok "Current"]
      ["Voltage", "Current"] (by decide) (by decide) (by decide)⟩

/-- C3 counterexample: in the temporal viewer an empty channel selection
leads to a warning and no extraction at all — nothing is substituted, in
particular not the first `min(3, n)` channels that the claim says would
make the result non-empty. -/
theorem temporal_empty_selection_no_default :
    temporal_selected_gate ([] : List String) = none ∧
    temporal_default_channels ["Canal 1", "Canal 2", "Canal 3", "Canal 4"] =
      ["Canal 1", "Canal 2", "Canal 3"] ∧
    (none : Option (List String)) ≠
      some ["Canal 1", "Canal 2", "Canal 3"] := by
  refine ⟨rfl, by decide, by decide⟩

/-- C3 as amended: the general viewer replaces an empty selection by the
first available channel, so its extraction input is never empty; the
temporal viewer only uses the first `min(3, n)` channels as the initial
multiselect default (a non-empty list whenever there are channels), and
on an empty selection it performs no extraction at all instead of
substituting that default. -/
theorem selection_empty_defaults (available selected names : List String)
    (_ha : available ≠ []) (hn : names ≠ []) :
    general_selected_channels available selected ≠ [] ∧
    (selected = [] →
      general_selected_channels available selected = [available.headD ""]) ∧
    temporal_default_channels names ≠ [] ∧
    temporal_selected_gate ([] : List String) = none := by
  refine ⟨?_, ?_, ?_, rfl⟩
  · unfold general_selected_channels
    by_cases hs : selected.isEmpty
    · rw [if_pos hs]
      simp
    · rw [if_neg hs]
      intro h
      rw [h] at hs
      exact hs rfl
  · intro h
    rw [h]
    rfl
  · unfold temporal_default_channels
    intro h
    rw [List.take_eq_nil_iff] at h
    rcases h with h0 | h0
    · have hlen : names.length ≠ 0 :=
        fun hh => hn (List.length_eq_zero.mp hh)
      omega
    · exact hn h0

theorem selection_empty_defaults_witness :
    (["Channel_1", "Channel_2"] : List String) ≠ [] ∧
    (["Canal 1", "Canal 2"] : List String) ≠ [] ∧
    (general_selected_channels ["Channel_1", "Channel_2"] [] ≠ [] ∧
      (([] : List String) = [] →
        general_selected_channels ["Channel_1", "Channel_2"] [] =
          [(["Channel_1", "Channel_2"] : List String).headD ""]) ∧
      temporal_default_channels ["Canal 1", "Canal 2"] ≠ [] ∧
      temporal_selected_gate ([] : List String) = none) :=
  ⟨by decide, by decide,
    selection_empty_defaults ["Channel_1", "Channel_2"] []
      ["Canal 1", "Canal 2"] (by decide) (by decide)⟩

lemma length_le_sum_lengths (rows : List (List ℚ))
    (h : ∀ r ∈ rows, r ≠ []) :
    rows.length ≤ (rows.map List.length).sum := by
  induction rows with
  | nil => simp
  | cons r t ih =>
      simp only [List.map_cons, List.sum_cons, List.length_cons]
      have hr : 1 ≤ r.length := by
        have hne := h r (List.mem_cons_self r t)
        exact Nat.one_le_iff_ne_zero.mpr
          (fun hz => hne (List.length_eq_zero.mp hz))
      have ht := ih (fun x hx => h x (List.mem_cons_of_mem r hx))
      omega

/-- C5 counterexample: the general viewer triggers truncation on
`data.size > max_samples` (total element count), not on the leading-axis
length, so a 2-D array with two rows and zero columns has size 0 and is
never truncated even though its leading-axis length 2 exceeds the cap
1 — it is not cut to its first row as the claim requires. -/
theorem general_sample_limit_zero_columns :
    general_sample_limit true 1 (NpArray.two [[], []]) =
      NpArray.two [[], []] ∧
    (NpArray.two [([] : List ℚ), []]).leadingLen = 2 ∧
    NpArray.two [([] : List ℚ), []] ≠ NpArray.two [([] : List ℚ)] := by
  refine ⟨by decide, by decide, by decide⟩

/-- C5 as amended: the temporal limiter behaves exactly as claimed
(unchanged when disabled or when the row count is within the cap, the
first `max_samples` rows otherwise); the general limiter behaves as
claimed for 1-D arrays, and for 2-D arrays with at least one column —
its trigger is the total element count, which only diverges from the
leading-axis length on zero-column arrays, which it never truncates.
Truncation is always a head prefix along the leading axis; the other
axis is untouched. -/
theorem sample_limit_prefix (b : Bool) (m : Nat) (xs : List ℚ)
    (rows rows2 : List (List ℚ)) (hcols : ∀ r ∈ rows2, r ≠ []) :
    ((b = false ∨ rows.length ≤ m) →
      temporal_sample_limit b m rows = rows) ∧
    (b = true → m < rows.length →
      temporal_sample_limit b m rows = rows.take m) ∧
    ((b = false ∨ xs.length ≤ m) →
      general_sample_limit b m (NpArray.one xs) = NpArray.one xs) ∧
    (b = true → m < xs.length →
      general_sample_limit b m (NpArray.one xs) =
        NpArray.one (xs.take m)) ∧
    ((b = false ∨ rows2.length ≤ m) →
      general_sample_limit b m (NpArray.two rows2) = NpArray.two rows2) ∧
    (b = true → m < rows2.length →
      general_sample_limit b m (NpArray.two rows2) =
        NpArray.two (rows2.take m)) := by
  refine ⟨?_, ?_, ?_, ?_, ?_, ?_⟩
  · intro h
    unfold temporal_sample_limit
    rw [if_neg]
    rintro ⟨hb, hm⟩
    rcases h with h | h
    · rw [h] at hb; cases hb
    · omega
  · intro hb hm
    unfold temporal_sample_limit
    rw [if_pos ⟨hb, hm⟩]
  · intro h
    unfold general_sample_limit
    rw [if_neg]
    rintro ⟨hb, hm⟩
    rcases h with h | h
    · rw [h] at hb; cases hb
    · exact absurd hm (by simpa [NpArray.size] using Nat.not_lt.mpr h)
  · intro hb hm
    unfold general_sample_limit
    rw [if_pos ⟨hb, by simpa [NpArray.size] using hm⟩]
  · intro h
    unfold general_sample_limit
    by_cases hcond : b = true ∧ m < (NpArray.two rows2).size
    · rw [if_pos hcond]
      have hlen : rows2.length ≤ m := by
        rcases h with h | h
        · rw [h] at hcond; cases hcond.1
        · exact h
      dsimp only
      rw [List.take_of_length_le hlen]
    · rw [if_neg hcond]
  · intro hb hm
    unfold general_sample_limit
    have hsize : m < (NpArray.two rows2).size := by
      have := length_le_sum_lengths rows2 hcols
      simp only [NpArray.size]
      omega
    rw [if_pos ⟨hb, hsize⟩]

theorem sample_limit_prefix_witness :
    (∀ r ∈ [[(1 : ℚ), 2], [3, 4], [5, 6]], r ≠ []) ∧
    ((true = false ∨ ([[(1 : ℚ), 2], [3, 4], [5, 6]] :
        List (List ℚ)).length ≤ 2) →
      temporal_sample_limit true 2 [[(1 : ℚ), 2], [3, 4], [5, 6]] =
        [[(1 : ℚ), 2], [3, 4], [5, 6]]) ∧
    (true = true → 2 < ([[(1 : ℚ), 2], [3, 4], [5, 6]] :
        List (List ℚ)).length →
      temporal_sample_limit true 2 [[(1 : ℚ), 2], [3, 4], [5, 6]] =
        ([[(1 : ℚ), 2], [3, 4], [5, 6]] : List (List ℚ)).take 2) ∧
    ((true = false ∨ ([(7 : ℚ), 8, 9] : List ℚ).length ≤ 2) →
      general_sample_limit true 2 (NpArray.one [(7 : ℚ), 8, 9]) =
        NpArray.one [(7 : ℚ), 8, 9]) ∧
    (true = true → 2 < ([(7 : ℚ), 8, 9] : List ℚ).length →
      general_sample_limit true 2 (NpArray.one [(7 : ℚ), 8, 9]) =
        NpArray.one (([(7 : ℚ), 8, 9] : List ℚ).take 2)) ∧
    ((true = false ∨ ([[(1 : ℚ), 2], [3, 4], [5, 6]] :
        List (List ℚ)).length ≤ 2) →
      general_sample_limit true 2 (NpArray.two [[(1 : ℚ), 2], [3, 4], [5, 6]]) =
        NpArray.two [[(1 : ℚ), 2], [3, 4], [5, 6]]) ∧
    (true = true → 2 < ([[(1 : ℚ), 2], [3, 4], [5, 6]] :
        List (List ℚ)).length →
      general_sample_limit true 2 (NpArray.two [[(1 : ℚ), 2], [3, 4], [5, 6]]) =
        NpArray.two (([[(1 : ℚ), 2], [3, 4], [5, 6]] :
          List (List ℚ)).take 2)) :=
  ⟨by decide,
    sample_limit_prefix true 2 [(7 : ℚ), 8, 9]
      [[(1 : ℚ), 2], [3, 4], [5, 6]] [[(1 : ℚ), 2], [3, 4], [5, 6]]
      (by decide)⟩

lemma column_ne_nil (i : Nat) (data : List (List ℚ)) (h : data ≠ []) :
    column i data ≠ [] := by
  cases data with
  | nil => exact absurd rfl h
  | cons r t => simp [column]

lemma npMin_ok (xs : List ℚ) (h : xs ≠ []) : npMin xs = .ok (npMinD xs) := by
  cases xs with
  | nil => exact absurd rfl h
  | cons x t => rfl

lemma npMax_ok (xs : List ℚ) (h : xs ≠ []) : npMax xs = .ok (npMaxD xs) := by
  cases xs with
  | nil => exact absurd rfl h
  | cons x t => rfl

lemma statsGo_eq (data : List (List ℚ)) (h : data ≠ []) :
    ∀ (names : List String) (i : Nat),
      statsGo data names i = PyRead.ok (statsSpec data names i) := by
  intro names
  induction names with
  | nil => intro i; rfl
  | cons name rest ih =>
      intro i
      have hcol : column i data ≠ [] := column_ne_nil i data h
      unfold statsGo
      dsimp only
      rw [npMin_ok _ hcol, npMax_ok _ hcol, ih (i + 1)]
      rfl

lemma statsSpec_length (data : List (List ℚ)) :
    ∀ (names : List String) (i : Nat),
      (statsSpec data names i).length = names.length := by
  intro names
  induction names with
  | nil => intro i; rfl
  | cons name rest ih =>
      intro i
      simp only [statsSpec, List.length_cons, ih (i + 1)]

lemma statsSpec_getD (data : List (List ℚ)) :
    ∀ (names : List String) (i k : Nat), k < names.length →
      (statsSpec data names i).getD k default =
        recOf data (i + k) (names.getD k "") := by
  intro names
  induction names with
  | nil =>
      intro i k hk
      simp at hk
  | cons name rest ih =>
      intro i k hk
      cases k with
      | zero => simp [statsSpec]
      | succ k2 =>
          simp only [statsSpec, List.getD_cons_succ]
          rw [ih (i + 1) k2 (by simpa using hk)]
          have harith : i + 1 + k2 = i + (k2 + 1) := by omega
          rw [harith]

/-- C6: for a non-empty channel matrix, `calculate_statistics` returns
one record per name, in name-list order, each holding the mean, the
minimum, the maximum, the median and the population variance of the
corresponding column (the stored standard deviation column is the
square root of that variance); in particular, for the constant column
`[5, 5, 5, 5]` it yields mean 5, min 5, max 5, median 5, variance 0,
and standard deviation `Real.sqrt 0 = 0`. -/
theorem calculate_statistics_spec (data : List (List ℚ))
    (names : List String) (h : data ≠ []) :
    (∃ recs, calculate_statistics data names = PyRead.ok recs ∧
        recs.length = names.length ∧
        ∀ k, k < names.length →
          recs.getD k default = recOf data k (names.getD k "")) ∧
    calculate_statistics [[5], [5], [5], [5]] ["c"] =
      PyRead.ok [{ canal := "c", media := some 5, minimo := 5, maximo := 5,
                   mediana := some 5, variancia := some 0 }] ∧
    Real.sqrt ((0 : ℚ) : ℝ) = 0 := by
  refine ⟨⟨statsSpec data names 0, statsGo_eq data h names 0,
      statsSpec_length data names 0, ?_⟩, ?_, ?_⟩
  · intro k hk
    simpa using statsSpec_getD data names 0 k hk
  · norm_num [calculate_statistics, statsGo, column, npMin, npMax, npMean,
      npMedian, npVar, List.insertionSort, List.orderedInsert]
  · rw [Rat.cast_zero]
    exact Real.sqrt_zero

theorem calculate_statistics_spec_witness :
    ([[(5 : ℚ)], [5], [5], [5]] : List (List ℚ)) ≠ [] ∧
    ((∃ recs, calculate_statistics [[(5 : ℚ)], [5], [5], [5]] ["c"] =
          PyRead.ok recs ∧
        recs.length = (["c"] : List String).length ∧
        ∀ k, k < (["c"] : List String).length →
          recs.getD k default =
            recOf [[(5 : ℚ)], [5], [5], [5]] k
              ((["c"] : List String).getD k "")) ∧
      calculate_statistics [[5], [5], [5], [5]] ["c"] =
        PyRead.ok [{ canal := "c", media := some 5, minimo := 5,
                     maximo := 5, mediana := some 5, variancia := some 0 }] ∧
      Real.sqrt ((0 : ℚ) : ℝ) = 0) :=
  ⟨by decide, calculate_statistics_spec [[(5 : ℚ)], [5], [5], [5]] ["c"]
    (by decide)⟩

/-- C7 counterexample: on a zero-row matrix with one channel name,
`calculate_statistics` does not return a record per name with a fixed
value — it raises the `ValueError` that `np.min` produces on an empty
column, so the call yields no statistics table at all. -/
theorem calculate_statistics_empty_not_ok :
    calculate_statistics ([] : List (List ℚ)) ["Canal 1"] =
      PyRead.raised
        "zero-size array to reduction operation minimum which has no identity" ∧
    (calculate_statistics ([] : List (List ℚ)) ["Canal 1"]).isOk = false := by
  exact ⟨rfl, rfl⟩

/-- C7 as amended: on a channel matrix with zero rows and at least one
channel name, `calculate_statistics` raises the `ValueError` coming
from `np.min` of an empty column (the mean, standard deviation, median
and variance of an empty column would merely be not-a-number, but the
minimum has no identity) instead of returning not-a-number records;
only with an empty name list does it return (an empty table). -/
theorem calculate_statistics_empty_raises (names : List String)
    (h : names ≠ []) :
    calculate_statistics ([] : List (List ℚ)) names =
      PyRead.raised
        "zero-size array to reduction operation minimum which has no identity" := by
  cases names with
  | nil => exact absurd rfl h
  | cons n rest => rfl

theorem calculate_statistics_empty_raises_witness :
    (["Canal 1"] : List String) ≠ [] ∧
    calculate_statistics ([] : List (List ℚ)) ["Canal 1"] =
      PyRead.raised
        "zero-size array to reduction operation minimum which has no identity" :=
  ⟨by decide, calculate_statistics_empty_raises ["Canal 1"] (by decide)⟩
